import Mathlib

/-
Shallow embedding of the AHAP pattern-construction engine
(package ahap: curves.go, musical.go, ahap.go, events.go, builder.go).
Go float64 arithmetic is modelled over the reals; Go int over the integers.
-/

noncomputable section

/-- Model of musical.go: Beat is a float64 position measured in beats. -/
abbrev Beat := ℝ

/-- Model of musical.go: Bar is a float64 position measured in bars. -/
abbrev Bar := ℝ

/-- Model of TimeSignature from musical.go. -/
structure TimeSignature where
  Numerator : ℤ
  Denominator : ℤ

/-- Model of MusicalContext from musical.go. -/
structure MusicalContext where
  BPM : ℝ
  timeSignature : TimeSignature

/-- Model of NewMusicalContext from musical.go. -/
def NewMusicalContext (bpm : ℝ) (numerator denominator : ℤ) : MusicalContext :=
  ⟨bpm, ⟨numerator, denominator⟩⟩

/-- Model of MusicalContext.BeatToSeconds from musical.go. -/
def MusicalContext.BeatToSeconds (m : MusicalContext) (beat : Beat) : ℝ :=
  beat * (60 / m.BPM)

/-- Model of MusicalContext.BarToSeconds from musical.go. -/
def MusicalContext.BarToSeconds (m : MusicalContext) (bar : Bar) : ℝ :=
  bar * (m.timeSignature.Numerator : ℝ) * (60 / m.BPM)

/-- Model of MusicalContext.BeatsPerBar from musical.go. -/
def MusicalContext.BeatsPerBar (m : MusicalContext) : ℤ :=
  m.timeSignature.Numerator

/-- Model of ControlPoint from ahap.go. -/
structure ControlPoint where
  Time : ℝ
  ParameterValue : ℝ

/-- Model of CreateCurve from curves.go: the Go loop writes, for i = 0..steps-1,
the point at time startTime + timeStep*(i+1) and value startValue + valueStep*(i+1). -/
def CreateCurve (startTime endTime startValue endValue : ℝ) (steps : ℤ) : List ControlPoint :=
  let steps := if steps < 1 then 1 else steps
  let timeDiff := endTime - startTime
  let valueDiff := endValue - startValue
  let timeStep := timeDiff / (steps : ℝ)
  let valueStep := valueDiff / (steps : ℝ)
  (List.range steps.toNat).map (fun (i : ℕ) =>
    ⟨startTime + timeStep * ((i : ℝ) + 1), startValue + valueStep * ((i : ℝ) + 1)⟩)

/-- Model of LinearInterpolation from curves.go. -/
def LinearInterpolation (start stop : ControlPoint) (steps : ℤ) : List ControlPoint :=
  CreateCurve start.Time stop.Time start.ParameterValue stop.ParameterValue steps

/-- Model of EaseInOut from curves.go (smoothstep value mapping). -/
def EaseInOut (start stop : ControlPoint) (steps : ℤ) : List ControlPoint :=
  let steps := if steps < 1 then 1 else steps
  let timeDiff := stop.Time - start.Time
  let valueDiff := stop.ParameterValue - start.ParameterValue
  (List.range steps.toNat).map (fun (i : ℕ) =>
    let t := ((i : ℝ) + 1) / (steps : ℝ)
    let smoothT := t * t * (3 - 2 * t)
    ⟨start.Time + timeDiff * t, start.ParameterValue + valueDiff * smoothT⟩)

/-- Model of Exponential from curves.go; math.Pow on a positive base is real rpow. -/
def Exponential (start stop : ControlPoint) (steps : ℤ) (exponent : ℝ) : List ControlPoint :=
  let steps := if steps < 1 then 1 else steps
  let timeDiff := stop.Time - start.Time
  let valueDiff := stop.ParameterValue - start.ParameterValue
  (List.range steps.toNat).map (fun (i : ℕ) =>
    let t := ((i : ℝ) + 1) / (steps : ℝ)
    let expT := t ^ exponent
    ⟨start.Time + timeDiff * t, start.ParameterValue + valueDiff * expT⟩)

/-- Error kinds of FreqToSharpness in curves.go: the input-band check
and the defensive check on the computed ratio. -/
inductive FreqError where
  | bandError : FreqError
  | ratioError : FreqError
deriving DecidableEq

/-- Model of FreqToSharpness from curves.go. -/
def FreqToSharpness (freq : ℝ) (normalize : Bool) : Except FreqError ℝ :=
  let f :=
    if normalize then
      let a := if freq > 230 then (230 : ℝ) else freq
      if a < 80 then (80 : ℝ) else a
    else freq
  if f < 80 ∨ f > 230 then .error .bandError
  else
    let r := (Real.log f - Real.log 80) / (Real.log 230 - Real.log 80)
    if r < 0 ∨ r > 1 then .error .ratioError
    else .ok r

/-- Model of EventParameter from ahap.go. -/
structure EventParameter where
  ParameterID : String
  ParameterValue : ℝ

/-- Model of Event from ahap.go; the json-omitempty pointers are Options. -/
structure Event where
  Time : ℝ
  EventType : String
  EventParameters : List EventParameter
  EventDuration : Option ℝ
  EventWaveformPath : Option String

/-- Model of ParameterCurve from ahap.go. -/
structure ParameterCurve where
  ParameterID : String
  Time : ℝ
  ParameterCurveControlPoints : List ControlPoint

/-- Model of Pattern from ahap.go: a struct with two optional pointer fields,
at most one of which is populated by the engine. -/
structure Pattern where
  event : Option Event
  parameterCurve : Option ParameterCurve

/-- Model of Metadata from ahap.go. -/
structure Metadata where
  Project : String
  Created : String
  Description : String
  CreatedBy : String

/-- Model of the AHAP top-level aggregate from ahap.go. -/
structure AHAP where
  Version : ℝ
  metadata : Metadata
  pattern : List Pattern

/-- EventType constant from ahap.go. -/
def EventTypeHapticTransient : String := "HapticTransient"

/-- EventType constant from ahap.go. -/
def EventTypeHapticContinuous : String := "HapticContinuous"

/-- EventType constant from ahap.go. -/
def EventTypeAudioCustom : String := "AudioCustom"

/-- EventType constant from ahap.go. -/
def EventTypeAudioContinuous : String := "AudioContinuous"

/-- ParameterID constant from ahap.go. -/
def ParamHapticIntensity : String := "HapticIntensity"

/-- ParameterID constant from ahap.go. -/
def ParamHapticSharpness : String := "HapticSharpness"

/-- ParameterID constant from ahap.go. -/
def ParamHapticAttackTime : String := "HapticAttackTime"

/-- ParameterID constant from ahap.go. -/
def ParamHapticDecayTime : String := "HapticDecayTime"

/-- ParameterID constant from ahap.go. -/
def ParamHapticReleaseTime : String := "HapticReleaseTime"

/-- ParameterID constant from ahap.go. -/
def ParamAudioVolume : String := "AudioVolume"

/-- ParameterID constant from ahap.go. -/
def ParamAudioPitch : String := "AudioPitch"

/-- ParameterID constant from ahap.go. -/
def ParamAudioPan : String := "AudioPan"

/-- ParameterID constant from ahap.go. -/
def ParamAudioBrightness : String := "AudioBrightness"

/-- ParameterID constant from ahap.go. -/
def ParamAudioAttackTime : String := "AudioAttackTime"

/-- ParameterID constant from ahap.go. -/
def ParamAudioDecayTime : String := "AudioDecayTime"

/-- ParameterID constant from ahap.go. -/
def ParamAudioReleaseTime : String := "AudioReleaseTime"

/-- Model of New from ahap.go; the extra argument stands for the wall-clock
timestamp string the source obtains from time.Now, made explicit here. -/
def New (description createdBy created : String) : AHAP :=
  ⟨1.0, ⟨"Basis", created, description, createdBy⟩, []⟩

/-- Model of AHAP.AddEvent from ahap.go: appends one event element. -/
def AHAP.AddEvent (a : AHAP) (event : Event) : AHAP :=
  { a with pattern := a.pattern ++ [⟨some event, none⟩] }

/-- Model of AHAP.AddParameterCurve from ahap.go: appends one curve element. -/
def AHAP.AddParameterCurve (a : AHAP) (curve : ParameterCurve) : AHAP :=
  { a with pattern := a.pattern ++ [⟨none, some curve⟩] }

/-- Model of AHAP.AddHapticTransient from events.go. -/
def AHAP.AddHapticTransient (a : AHAP) (time intensity sharpness : ℝ) : AHAP :=
  a.AddEvent ⟨time, EventTypeHapticTransient,
    [⟨ParamHapticIntensity, intensity⟩, ⟨ParamHapticSharpness, sharpness⟩], none, none⟩

/-- Model of AHAP.AddHapticContinuous from events.go. -/
def AHAP.AddHapticContinuous (a : AHAP) (time duration intensity sharpness : ℝ) : AHAP :=
  a.AddEvent ⟨time, EventTypeHapticContinuous,
    [⟨ParamHapticIntensity, intensity⟩, ⟨ParamHapticSharpness, sharpness⟩], some duration, none⟩

/-- Model of AHAP.AddAudioCustom from events.go. -/
def AHAP.AddAudioCustom (a : AHAP) (time : ℝ) (wavFilepath : String) (volume : ℝ) : AHAP :=
  a.AddEvent ⟨time, EventTypeAudioCustom,
    [⟨ParamAudioVolume, volume⟩], none, some wavFilepath⟩

/-- Model of AHAP.AddAudioContinuous from events.go. -/
def AHAP.AddAudioContinuous (a : AHAP) (time duration volume : ℝ) : AHAP :=
  a.AddEvent ⟨time, EventTypeAudioContinuous,
    [⟨ParamAudioVolume, volume⟩], some duration, none⟩

/-- Model of AHAP.AddCurve from curves.go. -/
def AHAP.AddCurve (a : AHAP) (parameterID : String) (startTime : ℝ)
    (controlPoints : List ControlPoint) : AHAP :=
  a.AddParameterCurve ⟨parameterID, startTime, controlPoints⟩

/-- Model of Builder from builder.go; the nil musical pointer is an Option. -/
structure Builder where
  ahap : AHAP
  musical : Option MusicalContext

/-- Model of NewBuilder from builder.go (created stands for the time.Now string). -/
def NewBuilder (description creator created : String) : Builder :=
  ⟨New description creator created, none⟩

/-- The nil-check-and-default idiom repeated in builder.go: when the musical
context is unset it is set to the default 120 BPM, 4/4 context. -/
def Builder.ensureMusical (b : Builder) : Builder :=
  if b.musical.isNone then { b with musical := some (NewMusicalContext 120 4 4) } else b

/-- The musical context read through a musical pointer that builder.go
dereferences after its nil check; the pointer is always set there, which this
models by falling back to the same default the nil check would have installed. -/
def ctxOf (om : Option MusicalContext) : MusicalContext :=
  om.getD (NewMusicalContext 120 4 4)

/-- The live musical context read through the pointer of the builder. -/
def Builder.musicalCtx (b : Builder) : MusicalContext :=
  ctxOf b.musical

/-- Model of TransientBuilder from builder.go. -/
structure TransientBuilder where
  builder : Builder
  time : ℝ
  intensity : ℝ
  sharpness : ℝ

/-- Model of Builder.Transient from builder.go. -/
def Builder.Transient (b : Builder) (time : ℝ) : TransientBuilder :=
  ⟨b, time, 0.5, 0.5⟩

/-- Model of TransientBuilder.Intensity from builder.go. -/
def TransientBuilder.Intensity (tb : TransientBuilder) (intensity : ℝ) : TransientBuilder :=
  { tb with intensity := intensity }

/-- Model of TransientBuilder.Sharpness from builder.go. -/
def TransientBuilder.Sharpness (tb : TransientBuilder) (sharpness : ℝ) : TransientBuilder :=
  { tb with sharpness := sharpness }

/-- Model of TransientBuilder.Add from builder.go. -/
def TransientBuilder.Add (tb : TransientBuilder) : Builder :=
  { tb.builder with ahap := tb.builder.ahap.AddHapticTransient tb.time tb.intensity tb.sharpness }

/-- Model of ContinuousBuilder from builder.go. -/
structure ContinuousBuilder where
  builder : Builder
  time : ℝ
  duration : ℝ
  intensity : ℝ
  sharpness : ℝ

/-- Model of Builder.Continuous from builder.go. -/
def Builder.Continuous (b : Builder) (time duration : ℝ) : ContinuousBuilder :=
  ⟨b, time, duration, 0.5, 0.5⟩

/-- Model of ContinuousBuilder.Intensity from builder.go. -/
def ContinuousBuilder.Intensity (cb : ContinuousBuilder) (intensity : ℝ) : ContinuousBuilder :=
  { cb with intensity := intensity }

/-- Model of ContinuousBuilder.Sharpness from builder.go. -/
def ContinuousBuilder.Sharpness (cb : ContinuousBuilder) (sharpness : ℝ) : ContinuousBuilder :=
  { cb with sharpness := sharpness }

/-- Model of ContinuousBuilder.Add from builder.go. -/
def ContinuousBuilder.Add (cb : ContinuousBuilder) : Builder :=
  { cb.builder with
    ahap := cb.builder.ahap.AddHapticContinuous cb.time cb.duration cb.intensity cb.sharpness }

/-- Model of EventBuilder from builder.go. -/
structure EventBuilder where
  builder : Builder
  time : ℝ

/-- Model of Builder.AtBeat from builder.go: installs the default musical context
when unset, then resolves the beat position through the (now set) context. -/
def Builder.AtBeat (b : Builder) (beat : Beat) : EventBuilder :=
  let b := b.ensureMusical
  ⟨b, b.musicalCtx.BeatToSeconds beat⟩

/-- Model of Builder.AtBar from builder.go. -/
def Builder.AtBar (b : Builder) (bar : Bar) : EventBuilder :=
  let b := b.ensureMusical
  ⟨b, b.musicalCtx.BarToSeconds bar⟩

/-- Model of EventBuilder.Transient from builder.go. -/
def EventBuilder.Transient (eb : EventBuilder) : TransientBuilder :=
  ⟨eb.builder, eb.time, 0.5, 0.5⟩

/-- Model of EventBuilder.Continuous from builder.go. -/
def EventBuilder.Continuous (eb : EventBuilder) (duration : ℝ) : ContinuousBuilder :=
  ⟨eb.builder, eb.time, duration, 0.5, 0.5⟩

/-- Model of EventBuilder.ContinuousBars from builder.go. -/
def EventBuilder.ContinuousBars (eb : EventBuilder) (bars : Bar) : ContinuousBuilder :=
  let b := eb.builder.ensureMusical
  ⟨b, eb.time, b.musicalCtx.BarToSeconds bars, 0.5, 0.5⟩

/-- Model of EventBuilder.ContinuousBeats from builder.go. -/
def EventBuilder.ContinuousBeats (eb : EventBuilder) (beats : Beat) : ContinuousBuilder :=
  let b := eb.builder.ensureMusical
  ⟨b, eb.time, b.musicalCtx.BeatToSeconds beats, 0.5, 0.5⟩

/-- Model of CurveBuilder from builder.go. -/
structure CurveBuilder where
  builder : Builder
  parameterID : String
  startTime : ℝ
  points : List ControlPoint

/-- Model of Builder.Curve from builder.go. -/
def Builder.Curve (b : Builder) (parameterID : String) : CurveBuilder :=
  ⟨b, parameterID, 0, []⟩

/-- Model of CurveBuilder.At from builder.go. -/
def CurveBuilder.At (cb : CurveBuilder) (time : ℝ) : CurveBuilder :=
  { cb with startTime := time }

/-- Model of CurveBuilder.AddPoint from builder.go. -/
def CurveBuilder.AddPoint (cb : CurveBuilder) (time value : ℝ) : CurveBuilder :=
  { cb with points := cb.points ++ [⟨time, value⟩] }

/-- Model of CurveBuilder.Points from builder.go: assigns, rather than appends. -/
def CurveBuilder.Points (cb : CurveBuilder) (points : List ControlPoint) : CurveBuilder :=
  { cb with points := points }

/-- Model of CurveBuilder.Add from builder.go. -/
def CurveBuilder.Add (cb : CurveBuilder) : Builder :=
  { cb.builder with ahap := cb.builder.ahap.AddCurve cb.parameterID cb.startTime cb.points }

/-- Model of CurveFromBuilder from builder.go. -/
structure CurveFromBuilder where
  curveBuilder : CurveBuilder
  startTime : ℝ
  startValue : ℝ

/-- Model of CurveBuilder.From from builder.go. -/
def CurveBuilder.From (cb : CurveBuilder) (time value : ℝ) : CurveFromBuilder :=
  ⟨cb, time, value⟩

/-- Model of CurveToBuilder from builder.go. -/
structure CurveToBuilder where
  curveBuilder : CurveBuilder
  startTime : ℝ
  startValue : ℝ
  endTime : ℝ
  endValue : ℝ

/-- Model of CurveFromBuilder.To from builder.go. -/
def CurveFromBuilder.To (cfb : CurveFromBuilder) (endTime endValue : ℝ) : CurveToBuilder :=
  ⟨cfb.curveBuilder, cfb.startTime, cfb.startValue, endTime, endValue⟩

/-- Alias for the top-level EaseInOut interpolator, needed because inside the
method CurveToBuilder.EaseInOut the bare name resolves to the method itself. -/
def easeInOutPoints : ControlPoint → ControlPoint → ℤ → List ControlPoint := EaseInOut

/-- Alias for the top-level Exponential interpolator, needed because inside the
method CurveToBuilder.Exponential the bare name resolves to the method itself. -/
def exponentialPoints : ControlPoint → ControlPoint → ℤ → ℝ → List ControlPoint := Exponential

/-- Model of CurveToBuilder.Steps from builder.go: appends a linear segment. -/
def CurveToBuilder.Steps (ctb : CurveToBuilder) (steps : ℤ) : CurveBuilder :=
  { ctb.curveBuilder with
    points := ctb.curveBuilder.points ++
      CreateCurve ctb.startTime ctb.endTime ctb.startValue ctb.endValue steps }

/-- Model of CurveToBuilder.EaseInOut from builder.go: appends a smoothstep segment. -/
def CurveToBuilder.EaseInOut (ctb : CurveToBuilder) (steps : ℤ) : CurveBuilder :=
  { ctb.curveBuilder with
    points := ctb.curveBuilder.points ++
      easeInOutPoints ⟨ctb.startTime, ctb.startValue⟩ ⟨ctb.endTime, ctb.endValue⟩ steps }

/-- Model of CurveToBuilder.Exponential from builder.go: appends an exponential segment. -/
def CurveToBuilder.Exponential (ctb : CurveToBuilder) (steps : ℤ) (exponent : ℝ) : CurveBuilder :=
  { ctb.curveBuilder with
    points := ctb.curveBuilder.points ++
      exponentialPoints ⟨ctb.startTime, ctb.startValue⟩ ⟨ctb.endTime, ctb.endValue⟩ steps exponent }

/-- Model of SequenceBuilder from builder.go. -/
structure SequenceBuilder where
  builder : Builder

/-- Model of Builder.Sequence from builder.go: installs the default context if unset. -/
def Builder.Sequence (b : Builder) : SequenceBuilder :=
  ⟨b.ensureMusical⟩

/-- The inclusive integer bar range iterated by the for loops in builder.go. -/
def barsRange (startBar endBar : ℤ) : List ℤ :=
  (List.range (endBar + 1 - startBar).toNat).map (fun (k : ℕ) => startBar + (k : ℤ))

/-- Model of SequenceBuilder.TransientsOnBeats from builder.go: for each bar in the
inclusive range and each beat offset, commits one transient at bar time plus beat time. -/
def SequenceBuilder.TransientsOnBeats (sb : SequenceBuilder) (beats : List Beat)
    (startBar endBar : ℤ) (intensity sharpness : ℝ) : Builder :=
  (barsRange startBar endBar).foldl
    (fun b (bar : ℤ) =>
      let barTime := b.musicalCtx.BarToSeconds (bar : ℝ)
      beats.foldl
        (fun b beat =>
          (((b.Transient (barTime + b.musicalCtx.BeatToSeconds beat)).Intensity
            intensity).Sharpness sharpness).Add)
        b)
    sb.builder

/-- Model of SequenceBuilder.TransientsOnBeatsInBar from builder.go. -/
def SequenceBuilder.TransientsOnBeatsInBar (sb : SequenceBuilder) (beats : List Beat)
    (bar : ℤ) (intensity sharpness : ℝ) : Builder :=
  sb.TransientsOnBeats beats bar bar intensity sharpness

/-- Model of SequenceBuilder.EveryBeat from builder.go: the beat set 0..beatsPerBar-1. -/
def SequenceBuilder.EveryBeat (sb : SequenceBuilder) (startBar endBar : ℤ)
    (intensity sharpness : ℝ) : Builder :=
  let beatsPerBar := sb.builder.musicalCtx.BeatsPerBar
  let beats := (List.range beatsPerBar.toNat).map (fun (i : ℕ) => ((i : ℤ) : ℝ))
  sb.TransientsOnBeats beats startBar endBar intensity sharpness

/-- The body of one iteration plus the loop control of the for loop in
SequenceBuilder.EveryNthBeat from builder.go, made total with a fuel argument:
the loop variable is i, the step is n, and the loop runs while i < totalBeats.
When the fuel runs out before the loop guard fails the result is none. -/
def everyNthBeatGo (m : MusicalContext) (n startBar endBar totalBeats beatsPerBar : ℤ)
    (intensity sharpness : ℝ) : ℕ → ℤ → Builder → Option Builder
  | 0, i, b => if i < totalBeats then none else some b
  | fuel + 1, i, b =>
    if i < totalBeats then
      let bar := Int.tdiv i beatsPerBar
      let beatInBar := Int.tmod i beatsPerBar
      let actualBar := startBar + bar
      let b :=
        if actualBar ≤ endBar then
          (((b.Transient (m.BarToSeconds (actualBar : ℝ) +
            m.BeatToSeconds ((beatInBar : ℤ) : ℝ))).Intensity intensity).Sharpness
            sharpness).Add
        else b
      everyNthBeatGo m n startBar endBar totalBeats beatsPerBar intensity sharpness fuel (i + n) b
    else some b

/-- Model of SequenceBuilder.EveryNthBeat from builder.go, with an explicit fuel
bound on the number of loop iterations since the source loop need not terminate. -/
def SequenceBuilder.EveryNthBeat (fuel : ℕ) (sb : SequenceBuilder) (n startBar endBar : ℤ)
    (intensity sharpness : ℝ) : Option Builder :=
  let m := sb.builder.musicalCtx
  let beatsPerBar := m.BeatsPerBar
  let totalBars := endBar - startBar + 1
  let totalBeats := totalBars * beatsPerBar
  everyNthBeatGo m n startBar endBar totalBeats beatsPerBar intensity sharpness fuel 0 sb.builder

/-- The EveryNthBeat loop terminates when some finite fuel suffices to run it
to completion. -/
def EveryNthBeatTerminates (sb : SequenceBuilder) (n startBar endBar : ℤ)
    (intensity sharpness : ℝ) : Prop :=
  ∃ fuel : ℕ, (SequenceBuilder.EveryNthBeat fuel sb n startBar endBar intensity sharpness).isSome

/-- Model of SequenceBuilder.Pattern from builder.go: the per-bar callback hook. -/
def SequenceBuilder.Pattern (sb : SequenceBuilder) (startBar endBar : ℤ)
    (fn : Builder → ℤ → Builder) : Builder :=
  (barsRange startBar endBar).foldl fn sb.builder

/-
Helper lemmas about the interpolators.
-/

lemma ifSteps_eq_max (steps : ℤ) : (if steps < 1 then (1 : ℤ) else steps) = max steps 1 := by
  rcases lt_or_le steps 1 with h | h
  · simp only [if_pos h]
    omega
  · simp only [if_neg (not_lt.mpr h)]
    omega

lemma maxSteps_cast_pos (N : ℤ) : (0 : ℝ) < ((max N 1 : ℤ) : ℝ) := by
  have : (1 : ℤ) ≤ max N 1 := le_max_right N 1
  exact_mod_cast lt_of_lt_of_le Int.zero_lt_one this

lemma createCurve_eq_map (t0 t1 v0 v1 : ℝ) (N : ℤ) :
    CreateCurve t0 t1 v0 v1 N =
      (List.range (max N 1).toNat).map (fun (k : ℕ) =>
        ⟨t0 + ((k : ℝ) + 1) * (t1 - t0) / ((max N 1 : ℤ) : ℝ),
         v0 + (v1 - v0) * (((k : ℝ) + 1) / ((max N 1 : ℤ) : ℝ))⟩) := by
  simp only [CreateCurve, ifSteps_eq_max]
  refine List.map_congr_left fun k _ => ?_
  simp only [ControlPoint.mk.injEq]
  constructor <;> ring

lemma easeInOut_eq_map (t0 t1 v0 v1 : ℝ) (N : ℤ) :
    EaseInOut ⟨t0, v0⟩ ⟨t1, v1⟩ N =
      (List.range (max N 1).toNat).map (fun (k : ℕ) =>
        ⟨t0 + ((k : ℝ) + 1) * (t1 - t0) / ((max N 1 : ℤ) : ℝ),
         v0 + (v1 - v0) *
          ((((k : ℝ) + 1) / ((max N 1 : ℤ) : ℝ)) * (((k : ℝ) + 1) / ((max N 1 : ℤ) : ℝ)) *
            (3 - 2 * (((k : ℝ) + 1) / ((max N 1 : ℤ) : ℝ))))⟩) := by
  simp only [EaseInOut, ifSteps_eq_max]
  refine List.map_congr_left fun k _ => ?_
  simp only [ControlPoint.mk.injEq]
  constructor <;> ring

lemma exponential_eq_map (t0 t1 v0 v1 expo : ℝ) (N : ℤ) :
    Exponential ⟨t0, v0⟩ ⟨t1, v1⟩ N expo =
      (List.range (max N 1).toNat).map (fun (k : ℕ) =>
        ⟨t0 + ((k : ℝ) + 1) * (t1 - t0) / ((max N 1 : ℤ) : ℝ),
         v0 + (v1 - v0) * ((((k : ℝ) + 1) / ((max N 1 : ℤ) : ℝ)) ^ expo)⟩) := by
  simp only [Exponential, ifSteps_eq_max]
  refine List.map_congr_left fun k _ => ?_
  simp only [ControlPoint.mk.injEq]
  refine ⟨by ring, ?_⟩
  ring_nf

lemma interpTime_ne_start {t0 t1 : ℝ} (h : t1 ≠ t0) (N : ℤ) (k : ℕ) :
    t0 + ((k : ℝ) + 1) * (t1 - t0) / ((max N 1 : ℤ) : ℝ) ≠ t0 := by
  have hM : (0 : ℝ) < ((max N 1 : ℤ) : ℝ) := maxSteps_cast_pos N
  intro hEq
  have hz : ((k : ℝ) + 1) * (t1 - t0) / ((max N 1 : ℤ) : ℝ) = 0 := by linarith
  rcases div_eq_zero_iff.mp hz with hnum | hden
  · rcases mul_eq_zero.mp hnum with hk | ht
    · have : (0 : ℝ) < (k : ℝ) + 1 := by positivity
      linarith
    · exact h (by linarith [sub_eq_zero.mp ht])
  · linarith

lemma start_time_not_mem {t0 t1 : ℝ} (h : t1 ≠ t0) (N : ℤ) (vals : ℕ → ℝ) :
    t0 ∉ ((List.range (max N 1).toNat).map (fun (k : ℕ) =>
      (⟨t0 + ((k : ℝ) + 1) * (t1 - t0) / ((max N 1 : ℤ) : ℝ), vals k⟩ : ControlPoint))).map
        ControlPoint.Time := by
  simp only [List.map_map, List.mem_map, Function.comp_apply, not_exists, not_and]
  intro k _
  exact interpTime_ne_start h N k

/-- C1: each of CreateCurve, EaseInOut and Exponential returns exactly max(N,1)
control points; the k-th point (k = 1..max(N,1)) has time t0 + k*(t1-t0)/max(N,1)
and value v0 + (v1-v0)*f, v0 + (v1-v0)*f*f*(3-2f), or v0 + (v1-v0)*f^e respectively,
with f = k/max(N,1); and, provided the anchor times differ, the point at time t0
itself is never emitted. -/
theorem c1_interpolation_points (t0 v0 t1 v1 expo : ℝ) (N : ℤ) :
    (CreateCurve t0 t1 v0 v1 N =
      (List.range (max N 1).toNat).map (fun (k : ℕ) =>
        ⟨t0 + ((k : ℝ) + 1) * (t1 - t0) / ((max N 1 : ℤ) : ℝ),
         v0 + (v1 - v0) * (((k : ℝ) + 1) / ((max N 1 : ℤ) : ℝ))⟩)) ∧
    (EaseInOut ⟨t0, v0⟩ ⟨t1, v1⟩ N =
      (List.range (max N 1).toNat).map (fun (k : ℕ) =>
        ⟨t0 + ((k : ℝ) + 1) * (t1 - t0) / ((max N 1 : ℤ) : ℝ),
         v0 + (v1 - v0) *
          ((((k : ℝ) + 1) / ((max N 1 : ℤ) : ℝ)) * (((k : ℝ) + 1) / ((max N 1 : ℤ) : ℝ)) *
            (3 - 2 * (((k : ℝ) + 1) / ((max N 1 : ℤ) : ℝ))))⟩)) ∧
    (Exponential ⟨t0, v0⟩ ⟨t1, v1⟩ N expo =
      (List.range (max N 1).toNat).map (fun (k : ℕ) =>
        ⟨t0 + ((k : ℝ) + 1) * (t1 - t0) / ((max N 1 : ℤ) : ℝ),
         v0 + (v1 - v0) * ((((k : ℝ) + 1) / ((max N 1 : ℤ) : ℝ)) ^ expo)⟩)) ∧
    (t1 ≠ t0 →
      t0 ∉ (CreateCurve t0 t1 v0 v1 N).map ControlPoint.Time ∧
      t0 ∉ (EaseInOut ⟨t0, v0⟩ ⟨t1, v1⟩ N).map ControlPoint.Time ∧
      t0 ∉ (Exponential ⟨t0, v0⟩ ⟨t1, v1⟩ N expo).map ControlPoint.Time) := by
  refine ⟨createCurve_eq_map t0 t1 v0 v1 N, easeInOut_eq_map t0 t1 v0 v1 N,
    exponential_eq_map t0 t1 v0 v1 expo N, fun h => ⟨?_, ?_, ?_⟩⟩
  · rw [createCurve_eq_map]
    exact start_time_not_mem h N _
  · rw [easeInOut_eq_map]
    exact start_time_not_mem h N _
  · rw [exponential_eq_map]
    exact start_time_not_mem h N _

/-- C1 counterexample: with coinciding anchor times (t0 = t1 = 0) and N = 1,
CreateCurve emits a control point whose time is exactly the start anchor time t0,
so the clause of the claim that the point at time t0 is never emitted is false as stated. -/
theorem c1_counterexample : (CreateCurve 0 0 0 1 1).map ControlPoint.Time = [0] := by
  norm_num [CreateCurve, List.range_succ]

/-- C1 witness: the amended theorem applied at the concrete anchors (0,0), (1,1)
with N = 2; the hypothesis t1 ≠ t0 is discharged at 1 ≠ 0. -/
theorem c1_witness :
    (1 : ℝ) ≠ 0 ∧ (0 : ℝ) ∉ (CreateCurve 0 1 0 1 2).map ControlPoint.Time :=
  ⟨by norm_num, ((c1_interpolation_points 0 0 1 1 2 2).2.2.2 (by norm_num)).1⟩

lemma interp_times_map (t0 t1 : ℝ) (N : ℤ) (vals : ℕ → ℝ) :
    ((List.range (max N 1).toNat).map (fun (k : ℕ) =>
        (⟨t0 + ((k : ℝ) + 1) * (t1 - t0) / ((max N 1 : ℤ) : ℝ), vals k⟩ : ControlPoint))).map
      ControlPoint.Time =
    (List.range (max N 1).toNat).map (fun (k : ℕ) =>
        t0 + ((k : ℝ) + 1) * (t1 - t0) / ((max N 1 : ℤ) : ℝ)) := by
  simp [List.map_map, Function.comp]

lemma interp_times_pairwise {t0 t1 : ℝ} (h : t0 < t1) (N : ℤ) :
    ((List.range (max N 1).toNat).map (fun (k : ℕ) =>
        t0 + ((k : ℝ) + 1) * (t1 - t0) / ((max N 1 : ℤ) : ℝ))).Pairwise (· < ·) := by
  have hM : (0 : ℝ) < ((max N 1 : ℤ) : ℝ) := maxSteps_cast_pos N
  have hd : (0 : ℝ) < t1 - t0 := by linarith
  refine List.pairwise_map.mpr ((List.pairwise_lt_range _).imp ?_)
  intro a b hab
  have hab' : ((a : ℝ) + 1) < ((b : ℝ) + 1) := by exact_mod_cast Nat.succ_lt_succ hab
  exact add_lt_add_left
    ((div_lt_div_iff_of_pos_right hM).mpr (mul_lt_mul_of_pos_right hab' hd)) t0

lemma interp_times_getLast (t0 t1 : ℝ) (N : ℤ) :
    ((List.range (max N 1).toNat).map (fun (k : ℕ) =>
        t0 + ((k : ℝ) + 1) * (t1 - t0) / ((max N 1 : ℤ) : ℝ))).getLast? = some t1 := by
  have h1 : (1 : ℤ) ≤ max N 1 := le_max_right N 1
  have hM : (0 : ℝ) < ((max N 1 : ℤ) : ℝ) := maxSteps_cast_pos N
  obtain ⟨m, hm⟩ : ∃ m, (max N 1).toNat = m + 1 := ⟨(max N 1).toNat - 1, by omega⟩
  rw [hm, List.range_succ, List.map_append]
  simp only [List.map_cons, List.map_nil]
  rw [List.getLast?_concat]
  have hcast : ((m : ℝ) + 1) = ((max N 1 : ℤ) : ℝ) := by
    have : ((max N 1).toNat : ℤ) = max N 1 := Int.toNat_of_nonneg (by omega)
    have h2 : ((m : ℤ) + 1) = max N 1 := by omega
    exact_mod_cast h2
  rw [hcast]
  have hne : ((max N 1 : ℤ) : ℝ) ≠ 0 := ne_of_gt hM
  field_simp

/-- C4: for all interpolation calls with any anchors and step count N the output
has exactly max(N,1) control points (not N itself when N is below 1), the last
point has exactly the end anchor time, and — provided the start anchor time
is strictly below the end anchor time — the point times are
strictly increasing. -/
theorem c4_count_monotone_last (t0 v0 t1 v1 expo : ℝ) (N : ℤ) :
    ((CreateCurve t0 t1 v0 v1 N).length = (max N 1).toNat ∧
     (EaseInOut ⟨t0, v0⟩ ⟨t1, v1⟩ N).length = (max N 1).toNat ∧
     (Exponential ⟨t0, v0⟩ ⟨t1, v1⟩ N expo).length = (max N 1).toNat) ∧
    (((CreateCurve t0 t1 v0 v1 N).map ControlPoint.Time).getLast? = some t1 ∧
     ((EaseInOut ⟨t0, v0⟩ ⟨t1, v1⟩ N).map ControlPoint.Time).getLast? = some t1 ∧
     ((Exponential ⟨t0, v0⟩ ⟨t1, v1⟩ N expo).map ControlPoint.Time).getLast? = some t1) ∧
    (t0 < t1 →
      ((CreateCurve t0 t1 v0 v1 N).map ControlPoint.Time).Pairwise (· < ·) ∧
      ((EaseInOut ⟨t0, v0⟩ ⟨t1, v1⟩ N).map ControlPoint.Time).Pairwise (· < ·) ∧
      ((Exponential ⟨t0, v0⟩ ⟨t1, v1⟩ N expo).map ControlPoint.Time).Pairwise (· < ·)) := by
  rw [createCurve_eq_map, easeInOut_eq_map, exponential_eq_map]
  refine ⟨⟨by simp, by simp, by simp⟩, ⟨?_, ?_, ?_⟩, fun h => ⟨?_, ?_, ?_⟩⟩ <;>
    rw [interp_times_map]
  · exact interp_times_getLast t0 t1 N
  · exact interp_times_getLast t0 t1 N
  · exact interp_times_getLast t0 t1 N
  · exact interp_times_pairwise h N
  · exact interp_times_pairwise h N
  · exact interp_times_pairwise h N

/-- C4 counterexample: with step count N = 0 the output has one control point,
not zero, and with coinciding anchor times the times are 0, 0 — not strictly
increasing — so the claim is false as stated for arbitrary anchors and step counts. -/
theorem c4_counterexample :
    (CreateCurve 0 1 0 1 0).length = 1 ∧
    (CreateCurve 0 0 0 1 2).map ControlPoint.Time = [0, 0] := by
  have h2 : (2 : ℤ).toNat = 2 := rfl
  constructor
  · norm_num [CreateCurve]
  · norm_num [CreateCurve, h2, List.range_succ, List.range_zero, Function.comp]

/-- C4 witness: the amended theorem applied at anchors (0,0) and (1,1) with
N = 2; the hypothesis t0 < t1 is discharged at 0 < 1. -/
theorem c4_witness :
    (0 : ℝ) < 1 ∧ ((CreateCurve 0 1 0 1 2).map ControlPoint.Time).Pairwise (· < ·) :=
  ⟨by norm_num, ((c4_count_monotone_last 0 0 1 1 2 2).2.2 (by norm_num)).1⟩

/-- C2: for positive tempo T and any time signature (n, d), BeatToSeconds is
b * (60/T), BarToSeconds is r * n * (60/T), n beats equal one bar in seconds,
and the denominator has no effect on either conversion. -/
theorem c2_musical_conversions (T : ℝ) (n d d2 : ℤ) (b r : ℝ) (hT : 0 < T) :
    (NewMusicalContext T n d).BeatToSeconds b = b * (60 / T) ∧
    (NewMusicalContext T n d).BarToSeconds r = r * (n : ℝ) * (60 / T) ∧
    (NewMusicalContext T n d).BeatToSeconds ((n : ℤ) : ℝ) =
      (NewMusicalContext T n d).BarToSeconds 1 ∧
    (NewMusicalContext T n d).BeatToSeconds b = (NewMusicalContext T n d2).BeatToSeconds b ∧
    (NewMusicalContext T n d).BarToSeconds r = (NewMusicalContext T n d2).BarToSeconds r := by
  refine ⟨rfl, rfl, ?_, rfl, rfl⟩
  simp only [NewMusicalContext, MusicalContext.BeatToSeconds, MusicalContext.BarToSeconds]
  ring

/-- C2 witness: the theorem applied at tempo 120, signature 4/4 (and 4/3 for the
denominator clause); the hypothesis 0 < T is discharged at T = 120. -/
theorem c2_witness :
    (0 : ℝ) < 120 ∧
    (NewMusicalContext 120 4 4).BeatToSeconds ((4 : ℤ) : ℝ) =
      (NewMusicalContext 120 4 4).BarToSeconds 1 :=
  ⟨by norm_num, (c2_musical_conversions 120 4 4 3 0 0 (by norm_num)).2.2.1⟩

/-
Helper lemmas about FreqToSharpness.
-/

lemma log_band_denom_pos : (0 : ℝ) < Real.log 230 - Real.log 80 :=
  sub_pos.mpr (Real.log_lt_log (by norm_num) (by norm_num))

lemma ratio_mem_unit {f : ℝ} (h80 : 80 ≤ f) (h230 : f ≤ 230) :
    0 ≤ (Real.log f - Real.log 80) / (Real.log 230 - Real.log 80) ∧
    (Real.log f - Real.log 80) / (Real.log 230 - Real.log 80) ≤ 1 := by
  have hd := log_band_denom_pos
  have hnum : 0 ≤ Real.log f - Real.log 80 :=
    sub_nonneg.mpr (Real.log_le_log (by norm_num) h80)
  have hle : Real.log f ≤ Real.log 230 := Real.log_le_log (by linarith) h230
  exact ⟨div_nonneg hnum hd.le, by rw [div_le_one hd]; linarith⟩

lemma freqToSharpness_inband {f : ℝ} (h80 : 80 ≤ f) (h230 : f ≤ 230) :
    FreqToSharpness f false =
      .ok ((Real.log f - Real.log 80) / (Real.log 230 - Real.log 80)) := by
  have hband : ¬ (f < 80 ∨ f > 230) := by push_neg; exact ⟨h80, h230⟩
  have hr := ratio_mem_unit h80 h230
  have hratio :
      ¬ ((Real.log f - Real.log 80) / (Real.log 230 - Real.log 80) < 0 ∨
         (Real.log f - Real.log 80) / (Real.log 230 - Real.log 80) > 1) := by
    push_neg
    exact ⟨hr.1, hr.2⟩
  simp only [FreqToSharpness, Bool.false_eq_true, if_false, if_neg hband, if_neg hratio]

lemma freqToSharpness_clamp (freq : ℝ) :
    FreqToSharpness freq true = FreqToSharpness (max 80 (min 230 freq)) false := by
  have hclamped :
      (if (if freq > 230 then (230 : ℝ) else freq) < 80 then (80 : ℝ)
       else if freq > 230 then (230 : ℝ) else freq) = max 80 (min 230 freq) := by
    rcases lt_or_le 230 freq with h230 | h230
    · rw [if_pos h230, if_neg (by norm_num : ¬(230 : ℝ) < 80), min_eq_left h230.le,
        max_eq_right (by norm_num : (80 : ℝ) ≤ 230)]
    · rw [if_neg (not_lt.mpr h230), min_eq_right h230]
      rcases lt_or_le freq 80 with h80 | h80
      · rw [if_pos h80, max_eq_left (by linarith)]
      · rw [if_neg (not_lt.mpr h80), max_eq_right h80]
  have hlhs :
      FreqToSharpness freq true =
        FreqToSharpness
          (if (if freq > 230 then (230 : ℝ) else freq) < 80 then (80 : ℝ)
           else if freq > 230 then (230 : ℝ) else freq) false := by
    simp only [FreqToSharpness, Bool.false_eq_true, if_false, eq_self_iff_true, if_true]
  rw [hlhs, hclamped]

lemma freqToSharpness_closed_form (freq : ℝ) (clamp : Bool) :
    FreqToSharpness freq clamp =
      if clamp then
        .ok ((Real.log (max 80 (min 230 freq)) - Real.log 80) /
          (Real.log 230 - Real.log 80))
      else if freq < 80 ∨ freq > 230 then .error .bandError
      else .ok ((Real.log freq - Real.log 80) / (Real.log 230 - Real.log 80)) := by
  cases clamp
  · simp only [Bool.false_eq_true, if_false]
    by_cases hband : freq < 80 ∨ freq > 230
    · rw [if_pos hband]
      simp only [FreqToSharpness, Bool.false_eq_true, if_false, if_pos hband]
    · rw [if_neg hband]
      push_neg at hband
      exact freqToSharpness_inband hband.1 hband.2
  · rw [if_pos rfl, freqToSharpness_clamp]
    have hlo : (80 : ℝ) ≤ max 80 (min 230 freq) := le_max_left _ _
    have hhi : max 80 (min 230 freq) ≤ 230 := by
      rcases le_total freq 230 with h | h
      · exact max_le (by norm_num) (min_le_left _ _)
      · exact max_le (by norm_num) (min_le_left _ _)
    exact freqToSharpness_inband hlo hhi

/-- C3: FreqToSharpness fails exactly when clamping is disabled and the input
lies outside [80, 230]; with clamping enabled the input is first clamped into
[80, 230] and the call succeeds; on an in-band input the result is the
logarithmic ratio (ln f - ln 80)/(ln 230 - ln 80); the defensive check on the
ratio is unreachable; and the three concrete evaluations of the spec hold. -/
theorem c3_freq_to_sharpness (freq : ℝ) (clamp : Bool) :
    (FreqToSharpness freq clamp = .error .bandError ↔
      clamp = false ∧ (freq < 80 ∨ freq > 230)) ∧
    FreqToSharpness freq clamp ≠ .error .ratioError ∧
    (clamp = true →
      FreqToSharpness freq true = FreqToSharpness (max 80 (min 230 freq)) false) ∧
    (80 ≤ freq → freq ≤ 230 →
      FreqToSharpness freq clamp =
        .ok ((Real.log freq - Real.log 80) / (Real.log 230 - Real.log 80))) ∧
    FreqToSharpness 80 false = .ok 0 ∧
    FreqToSharpness 230 false = .ok 1 ∧
    FreqToSharpness 50 true = FreqToSharpness 80 false := by
  refine ⟨?_, ?_, fun _ => freqToSharpness_clamp freq, ?_, ?_, ?_, ?_⟩
  · rw [freqToSharpness_closed_form]
    cases clamp
    · by_cases hband : freq < 80 ∨ freq > 230 <;> simp [hband]
    · simp
  · rw [freqToSharpness_closed_form]
    cases clamp
    · by_cases hband : freq < 80 ∨ freq > 230 <;> simp [hband]
    · simp
  · intro h80 h230
    have hband : ¬ (freq < 80 ∨ freq > 230) := by push_neg; exact ⟨h80, h230⟩
    rw [freqToSharpness_closed_form]
    cases clamp
    · simp [hband]
    · have : max 80 (min 230 freq) = freq := by
        rw [min_eq_right h230, max_eq_right h80]
      simp [this]
  · rw [freqToSharpness_inband (by norm_num) (by norm_num)]
    norm_num
  · rw [freqToSharpness_inband (by norm_num) (by norm_num)]
    rw [div_self (ne_of_gt log_band_denom_pos)]
  · rw [freqToSharpness_clamp]
    have : max (80 : ℝ) (min 230 50) = 80 := by norm_num
    rw [this]

/-- C3 witness: the theorem applied at frequency 100 for both clamp settings;
the clamp hypothesis is discharged by rfl and the band bounds at 80 ≤ 100 ≤ 230. -/
theorem c3_witness :
    FreqToSharpness 100 true = FreqToSharpness (max 80 (min 230 100)) false ∧
    FreqToSharpness 100 false =
      .ok ((Real.log 100 - Real.log 80) / (Real.log 230 - Real.log 80)) :=
  ⟨(c3_freq_to_sharpness 100 true).2.2.1 rfl,
   (c3_freq_to_sharpness 100 false).2.2.2.1 (by norm_num) (by norm_num)⟩

/-
Helper definitions naming the event shapes the commit operations append.
-/

/-- The event built by AHAP.AddHapticTransient in events.go. -/
def transientEvent (time intensity sharpness : ℝ) : Event :=
  ⟨time, EventTypeHapticTransient,
    [⟨ParamHapticIntensity, intensity⟩, ⟨ParamHapticSharpness, sharpness⟩], none, none⟩

/-- The event built by AHAP.AddHapticContinuous in events.go. -/
def continuousEvent (time duration intensity sharpness : ℝ) : Event :=
  ⟨time, EventTypeHapticContinuous,
    [⟨ParamHapticIntensity, intensity⟩, ⟨ParamHapticSharpness, sharpness⟩], some duration, none⟩

/-- The event built by AHAP.AddAudioCustom in events.go. -/
def audioCustomEvent (time : ℝ) (wavFilepath : String) (volume : ℝ) : Event :=
  ⟨time, EventTypeAudioCustom, [⟨ParamAudioVolume, volume⟩], none, some wavFilepath⟩

/-- The event built by AHAP.AddAudioContinuous in events.go. -/
def audioContinuousEvent (time duration volume : ℝ) : Event :=
  ⟨time, EventTypeAudioContinuous, [⟨ParamAudioVolume, volume⟩], some duration, none⟩

/-- The pattern element appended by a haptic transient commit. -/
def transientPattern (time intensity sharpness : ℝ) : Pattern :=
  ⟨some (transientEvent time intensity sharpness), none⟩

/-- The pattern element appended by a haptic continuous commit. -/
def continuousPattern (time duration intensity sharpness : ℝ) : Pattern :=
  ⟨some (continuousEvent time duration intensity sharpness), none⟩

/-- A pattern element with exactly one of its two variants populated. -/
def exactlyOneVariant (p : Pattern) : Prop :=
  (p.event.isSome ∧ p.parameterCurve = none) ∨ (p.event = none ∧ p.parameterCurve.isSome)

/-- C6: every commit operation — AddEvent, AddParameterCurve, and the Add of the
transient, continuous and curve builders — appends exactly one new element at the
end of the pattern sequence, leaving the previously appended prefix unchanged
(so sequence order is insertion order), and the appended element has exactly one
of its Event / ParameterCurve variants populated. -/
theorem c6_commit_appends_one (a : AHAP) (ev : Event) (c : ParameterCurve)
    (tb : TransientBuilder) (cb : ContinuousBuilder) (kb : CurveBuilder) :
    ((a.AddEvent ev).pattern = a.pattern ++ [⟨some ev, none⟩] ∧
     (a.AddParameterCurve c).pattern = a.pattern ++ [⟨none, some c⟩]) ∧
    (tb.Add.ahap.pattern = tb.builder.ahap.pattern ++
        [transientPattern tb.time tb.intensity tb.sharpness] ∧
     cb.Add.ahap.pattern = cb.builder.ahap.pattern ++
        [continuousPattern cb.time cb.duration cb.intensity cb.sharpness] ∧
     kb.Add.ahap.pattern = kb.builder.ahap.pattern ++
        [⟨none, some ⟨kb.parameterID, kb.startTime, kb.points⟩⟩]) ∧
    (exactlyOneVariant ⟨some ev, none⟩ ∧
     exactlyOneVariant ⟨none, some c⟩ ∧
     exactlyOneVariant (transientPattern tb.time tb.intensity tb.sharpness) ∧
     exactlyOneVariant (continuousPattern cb.time cb.duration cb.intensity cb.sharpness) ∧
     exactlyOneVariant ⟨none, some ⟨kb.parameterID, kb.startTime, kb.points⟩⟩) := by
  refine ⟨⟨rfl, rfl⟩, ⟨rfl, rfl, rfl⟩, ?_, ?_, ?_, ?_, ?_⟩
  · exact Or.inl ⟨rfl, rfl⟩
  · exact Or.inr ⟨rfl, rfl⟩
  · exact Or.inl ⟨rfl, rfl⟩
  · exact Or.inl ⟨rfl, rfl⟩
  · exact Or.inr ⟨rfl, rfl⟩

/-- C9: on a curve staging object, Points replaces the whole accumulated
control-point list, while AddPoint and the three interpolation selectors
(Steps, EaseInOut, Exponential) append to the existing list. -/
theorem c9_points_replace_selectors_append (cb : CurveBuilder) (pts : List ControlPoint)
    (t v t0 v0 t1 v1 expo : ℝ) (n : ℤ) :
    (cb.Points pts).points = pts ∧
    (cb.AddPoint t v).points = cb.points ++ [⟨t, v⟩] ∧
    (((cb.From t0 v0).To t1 v1).Steps n).points = cb.points ++ CreateCurve t0 t1 v0 v1 n ∧
    (((cb.From t0 v0).To t1 v1).EaseInOut n).points =
      cb.points ++ EaseInOut ⟨t0, v0⟩ ⟨t1, v1⟩ n ∧
    (((cb.From t0 v0).To t1 v1).Exponential n expo).points =
      cb.points ++ Exponential ⟨t0, v0⟩ ⟨t1, v1⟩ n expo :=
  ⟨rfl, rfl, rfl, rfl, rfl⟩

/-- The event parameter identifiers carried by an event, in order. -/
def eventParamIDs (ev : Event) : List String :=
  ev.EventParameters.map EventParameter.ParameterID

/-- The parameter identifiers that are declared in ahap.go but that no public
commit operation ever attaches to an event. -/
def unusedParamIDs : List String :=
  [ParamHapticAttackTime, ParamHapticDecayTime, ParamHapticReleaseTime,
   ParamAudioPitch, ParamAudioPan, ParamAudioBrightness,
   ParamAudioAttackTime, ParamAudioDecayTime, ParamAudioReleaseTime]

/-- C10: each committed event carries a fixed parameter list — haptic transient
and haptic continuous events carry exactly HapticIntensity followed by
HapticSharpness, audio custom and audio continuous events carry exactly
AudioVolume — and these lists are disjoint from the pitch/pan/brightness/
attack/decay/release identifiers, which are declared but never emitted. -/
theorem c10_fixed_parameter_lists (a : AHAP) (t dur i s v : ℝ) (wav : String) :
    ((a.AddHapticTransient t i s).pattern = a.pattern ++ [transientPattern t i s] ∧
     (a.AddHapticContinuous t dur i s).pattern =
        a.pattern ++ [continuousPattern t dur i s] ∧
     (a.AddAudioCustom t wav v).pattern =
        a.pattern ++ [⟨some (audioCustomEvent t wav v), none⟩] ∧
     (a.AddAudioContinuous t dur v).pattern =
        a.pattern ++ [⟨some (audioContinuousEvent t dur v), none⟩]) ∧
    (eventParamIDs (transientEvent t i s) = [ParamHapticIntensity, ParamHapticSharpness] ∧
     eventParamIDs (continuousEvent t dur i s) =
        [ParamHapticIntensity, ParamHapticSharpness] ∧
     eventParamIDs (audioCustomEvent t wav v) = [ParamAudioVolume] ∧
     eventParamIDs (audioContinuousEvent t dur v) = [ParamAudioVolume]) ∧
    (List.Disjoint [ParamHapticIntensity, ParamHapticSharpness] unusedParamIDs ∧
     List.Disjoint [ParamAudioVolume] unusedParamIDs) := by
  refine ⟨⟨rfl, rfl, rfl, rfl⟩, ⟨rfl, rfl, rfl, rfl⟩, ?_, ?_⟩ <;>
    · intro x hx
      fin_cases hx <;> decide

/-
Helper lemmas about the lazy default musical context.
-/

lemma ensureMusical_none {b : Builder} (hb : b.musical = none) :
    b.ensureMusical = { b with musical := some (NewMusicalContext 120 4 4) } := by
  simp [Builder.ensureMusical, hb]

lemma ensureMusical_some {b : Builder} {m : MusicalContext} (hb : b.musical = some m) :
    b.ensureMusical = b := by
  simp [Builder.ensureMusical, hb]

lemma musicalCtx_eq {b : Builder} {m : MusicalContext} (hb : b.musical = some m) :
    b.musicalCtx = m := by
  simp [Builder.musicalCtx, ctxOf, hb]

/-- C8: every event staging object is created with default intensity 0.5 and
sharpness 0.5 — so a commit with no setter calls appends an event whose two
parameter values are 0.5 — and every musically-relative operation invoked on a
session with no configured musical context first installs the default
120 BPM, 4/4 context and resolves positions and durations through it. -/
theorem c8_defaults_and_lazy_context (b : Builder) (eb : EventBuilder)
    (t dur beat bar bb : ℝ) (hb : b.musical = none) (heb : eb.builder.musical = none) :
    (((b.Transient t).intensity = 0.5 ∧ (b.Transient t).sharpness = 0.5) ∧
     ((b.Continuous t dur).intensity = 0.5 ∧ (b.Continuous t dur).sharpness = 0.5) ∧
     (eb.Transient.intensity = 0.5 ∧ eb.Transient.sharpness = 0.5) ∧
     ((eb.Continuous dur).intensity = 0.5 ∧ (eb.Continuous dur).sharpness = 0.5) ∧
     ((eb.ContinuousBars bb).intensity = 0.5 ∧ (eb.ContinuousBars bb).sharpness = 0.5) ∧
     ((eb.ContinuousBeats bb).intensity = 0.5 ∧ (eb.ContinuousBeats bb).sharpness = 0.5)) ∧
    ((b.Transient t).Add.ahap.pattern = b.ahap.pattern ++ [transientPattern t 0.5 0.5] ∧
     (b.Continuous t dur).Add.ahap.pattern =
        b.ahap.pattern ++ [continuousPattern t dur 0.5 0.5]) ∧
    (((b.AtBeat beat).builder.musical = some (NewMusicalContext 120 4 4) ∧
      (b.AtBeat beat).time = (NewMusicalContext 120 4 4).BeatToSeconds beat) ∧
     ((b.AtBar bar).builder.musical = some (NewMusicalContext 120 4 4) ∧
      (b.AtBar bar).time = (NewMusicalContext 120 4 4).BarToSeconds bar) ∧
     (b.Sequence.builder.musical = some (NewMusicalContext 120 4 4)) ∧
     ((eb.ContinuousBars bb).builder.musical = some (NewMusicalContext 120 4 4) ∧
      (eb.ContinuousBars bb).duration = (NewMusicalContext 120 4 4).BarToSeconds bb) ∧
     ((eb.ContinuousBeats bb).builder.musical = some (NewMusicalContext 120 4 4) ∧
      (eb.ContinuousBeats bb).duration = (NewMusicalContext 120 4 4).BeatToSeconds bb)) := by
  have hb' := ensureMusical_none hb
  have heb' := ensureMusical_none heb
  refine ⟨⟨⟨rfl, rfl⟩, ⟨rfl, rfl⟩, ⟨rfl, rfl⟩, ⟨rfl, rfl⟩, ⟨rfl, rfl⟩, ⟨rfl, rfl⟩⟩,
    ⟨rfl, rfl⟩, ⟨?_, ?_⟩, ⟨?_, ?_⟩, ?_, ⟨?_, ?_⟩, ⟨?_, ?_⟩⟩ <;>
    simp [Builder.AtBeat, Builder.AtBar, Builder.Sequence, EventBuilder.ContinuousBars,
      EventBuilder.ContinuousBeats, hb', heb', musicalCtx_eq, Builder.musicalCtx, ctxOf]

/-- C8 witness: the theorem applied to a fresh builder (whose musical context is
nil) and an event builder over it, with each hypothesis discharged by rfl. -/
theorem c8_witness :
    ((NewBuilder "d" "c" "ts").Transient 1).intensity = 0.5 ∧
    ((NewBuilder "d" "c" "ts").AtBeat 1).builder.musical =
      some (NewMusicalContext 120 4 4) := by
  have h := c8_defaults_and_lazy_context (NewBuilder "d" "c" "ts")
    ⟨NewBuilder "d" "c" "ts", 0⟩ 1 1 1 1 1 rfl rfl
  exact ⟨h.1.1.1, h.2.2.1.1⟩

/-
Helper lemmas about the sequence-generator folds.
-/

lemma musicalCtx_ctxOf (b : Builder) : b.musicalCtx = ctxOf b.musical := rfl

lemma foldl_pattern_append {α : Type} (g : Option MusicalContext → α → List Pattern)
    (step : Builder → α → Builder)
    (hstep : ∀ b x, (step b x).ahap.pattern = b.ahap.pattern ++ g b.musical x ∧
      (step b x).musical = b.musical) :
    ∀ (xs : List α) (b : Builder),
      (xs.foldl step b).ahap.pattern = b.ahap.pattern ++ (xs.map (g b.musical)).flatten ∧
      (xs.foldl step b).musical = b.musical := by
  intro xs
  induction xs with
  | nil => intro b; simp
  | cons x rest ih =>
    intro b
    rcases hstep b x with ⟨hp, hm⟩
    rcases ih (step b x) with ⟨ihp, ihm⟩
    refine ⟨?_, ?_⟩
    · rw [List.foldl_cons, ihp, hp, hm]
      simp
    · rw [List.foldl_cons, ihm, hm]

lemma flatten_map_singleton {α β : Type} (l : List α) (f : α → β) :
    (l.map (fun x => [f x])).flatten = l.map f := by
  induction l with
  | nil => rfl
  | cons x xs ih => simp [ih]

lemma beats_fold_pattern (beats : List Beat) (barTime i s : ℝ) (b : Builder) :
    ((beats.foldl (fun bb beat =>
        (((bb.Transient (barTime + (ctxOf bb.musical).BeatToSeconds beat)).Intensity
          i).Sharpness s).Add) b).ahap.pattern
      = b.ahap.pattern ++ beats.map (fun beat =>
          transientPattern (barTime + (ctxOf b.musical).BeatToSeconds beat) i s)) ∧
    ((beats.foldl (fun bb beat =>
        (((bb.Transient (barTime + (ctxOf bb.musical).BeatToSeconds beat)).Intensity
          i).Sharpness s).Add) b).musical = b.musical) := by
  have h := foldl_pattern_append
    (fun om beat => [transientPattern (barTime + (ctxOf om).BeatToSeconds beat) i s])
    (fun bb beat =>
      (((bb.Transient (barTime + (ctxOf bb.musical).BeatToSeconds beat)).Intensity
        i).Sharpness s).Add)
    (fun bb beat => ⟨rfl, rfl⟩) beats b
  rcases h with ⟨hp, hm⟩
  rw [flatten_map_singleton] at hp
  exact ⟨hp, hm⟩

lemma transientsOnBeats_pattern (b : Builder) (beats : List Beat) (startBar endBar : ℤ)
    (i s : ℝ) :
    (SequenceBuilder.TransientsOnBeats ⟨b⟩ beats startBar endBar i s).ahap.pattern
      = b.ahap.pattern ++ ((barsRange startBar endBar).map (fun bar =>
          beats.map (fun beat => transientPattern
            ((ctxOf b.musical).BarToSeconds ((bar : ℤ) : ℝ) +
              (ctxOf b.musical).BeatToSeconds beat) i s))).flatten := by
  have h := foldl_pattern_append
    (fun om bar => beats.map (fun beat => transientPattern
      ((ctxOf om).BarToSeconds ((bar : ℤ) : ℝ) + (ctxOf om).BeatToSeconds beat) i s))
    (fun bo bar =>
      beats.foldl (fun bb beat =>
        (((bb.Transient ((ctxOf bo.musical).BarToSeconds ((bar : ℤ) : ℝ) +
          (ctxOf bb.musical).BeatToSeconds beat)).Intensity i).Sharpness s).Add) bo)
    (fun bo bar => beats_fold_pattern beats
      ((ctxOf bo.musical).BarToSeconds ((bar : ℤ) : ℝ)) i s bo)
    (barsRange startBar endBar) b
  have hunfold :
      SequenceBuilder.TransientsOnBeats ⟨b⟩ beats startBar endBar i s =
        (barsRange startBar endBar).foldl
          (fun bo bar =>
            beats.foldl (fun bb beat =>
              (((bb.Transient ((ctxOf bo.musical).BarToSeconds ((bar : ℤ) : ℝ) +
                (ctxOf bb.musical).BeatToSeconds beat)).Intensity i).Sharpness s).Add) bo)
          b := by
    simp only [SequenceBuilder.TransientsOnBeats, musicalCtx_ctxOf]
  rw [hunfold]
  exact h.1

/-- C7: for a session whose musical context is set, TransientsOnBeats commits,
for each bar of the inclusive range and each beat offset of the given set, one
haptic transient at BarToSeconds(bar) + BeatToSeconds(beat) with the given
intensity and sharpness, in that order; and under tempo 120 with a 4/4
signature, EveryBeat over bars 0..2 commits exactly the 12 transients at times
0.0, 0.5, 1.0, 1.5, 2.0, 2.5, 3.0, 3.5, 4.0, 4.5, 5.0, 5.5. -/
theorem c7_sequence_transients (b : Builder) (m : MusicalContext)
    (hb : b.musical = some m) (intensity sharpness : ℝ) (beats : List Beat)
    (startBar endBar : ℤ) :
    (b.Sequence.TransientsOnBeats beats startBar endBar intensity sharpness).ahap.pattern
      = b.ahap.pattern ++ ((barsRange startBar endBar).map (fun bar =>
          beats.map (fun beat => transientPattern
            (m.BarToSeconds ((bar : ℤ) : ℝ) + m.BeatToSeconds beat)
            intensity sharpness))).flatten ∧
    (m = NewMusicalContext 120 4 4 →
      (b.Sequence.EveryBeat 0 2 intensity sharpness).ahap.pattern
        = b.ahap.pattern ++
            ([0, 0.5, 1, 1.5, 2, 2.5, 3, 3.5, 4, 4.5, 5, 5.5].map
              (fun tt => transientPattern tt intensity sharpness))) := by
  have hseq : b.Sequence = ⟨b⟩ := by
    simp [Builder.Sequence, ensureMusical_some hb]
  have hctx : ctxOf b.musical = m := by
    simp [ctxOf, hb]
  constructor
  · rw [hseq, transientsOnBeats_pattern, hctx]
  · intro hm
    subst hm
    rw [hseq]
    show (SequenceBuilder.EveryBeat ⟨b⟩ 0 2 intensity sharpness).ahap.pattern = _
    unfold SequenceBuilder.EveryBeat
    rw [show (⟨b⟩ : SequenceBuilder).builder.musicalCtx = NewMusicalContext 120 4 4 from
      musicalCtx_eq hb]
    rw [transientsOnBeats_pattern, hctx]
    have h3 : (3 : ℤ).toNat = 3 := rfl
    have h4 : (4 : ℤ).toNat = 4 := rfl
    norm_num [barsRange, h3, h4, List.range_succ, List.range_zero, Function.comp,
      NewMusicalContext, MusicalContext.BeatsPerBar, MusicalContext.BarToSeconds,
      MusicalContext.BeatToSeconds]

/-- C7 witness: the theorem applied to a concrete session configured at 120 BPM
in 4/4; both hypotheses are discharged by rfl. -/
theorem c7_witness :
    ((⟨New "d" "c" "ts", some (NewMusicalContext 120 4 4)⟩ : Builder).Sequence.EveryBeat
        0 2 1 1).ahap.pattern
      = (⟨New "d" "c" "ts", some (NewMusicalContext 120 4 4)⟩ : Builder).ahap.pattern ++
          ([0, 0.5, 1, 1.5, 2, 2.5, 3, 3.5, 4, 4.5, 5, 5.5].map
            (fun tt => transientPattern tt 1 1)) :=
  (c7_sequence_transients ⟨New "d" "c" "ts", some (NewMusicalContext 120 4 4)⟩
    (NewMusicalContext 120 4 4) rfl 1 1 [] 0 0).2 rfl

/-
Helper lemmas about the EveryNthBeat loop.
-/

lemma go_none_of_nonpos (m : MusicalContext) (n startBar endBar totalBeats beatsPerBar : ℤ)
    (i s : ℝ) (hn : n ≤ 0) (htb : 0 < totalBeats) :
    ∀ (fuel : ℕ) (iv : ℤ) (b : Builder), iv ≤ 0 →
      everyNthBeatGo m n startBar endBar totalBeats beatsPerBar i s fuel iv b = none := by
  intro fuel
  induction fuel with
  | zero =>
    intro iv b hiv
    simp only [everyNthBeatGo, if_pos (lt_of_le_of_lt hiv htb)]
  | succ f ih =>
    intro iv b hiv
    simp only [everyNthBeatGo, if_pos (lt_of_le_of_lt hiv htb)]
    exact ih (iv + n) _ (by omega)

lemma go_some_of_pos (m : MusicalContext) (n startBar endBar totalBeats beatsPerBar : ℤ)
    (i s : ℝ) (hn : 1 ≤ n) :
    ∀ (fuel : ℕ) (iv : ℤ) (b : Builder), totalBeats - iv ≤ (fuel : ℤ) →
      (everyNthBeatGo m n startBar endBar totalBeats beatsPerBar i s fuel iv b).isSome := by
  intro fuel
  induction fuel with
  | zero =>
    intro iv b hf
    simp only [everyNthBeatGo, if_neg (by omega : ¬ iv < totalBeats)]
    rfl
  | succ f ih =>
    intro iv b hf
    by_cases h : iv < totalBeats
    · simp only [everyNthBeatGo, if_pos h]
      exact ih (iv + n) _ (by omega)
    · simp only [everyNthBeatGo, if_neg h]
      rfl

lemma length_flatten_const {α β : Type} (l : List α) (f : α → List β) (c : ℕ)
    (hf : ∀ x ∈ l, (f x).length = c) : (l.map f).flatten.length = l.length * c := by
  induction l with
  | nil => simp
  | cons x xs ih =>
    have hx := hf x (List.mem_cons_self x xs)
    have hxs := ih (fun y hy => hf y (List.mem_cons_of_mem x hy))
    simp only [List.map_cons, List.flatten_cons, List.length_append, List.length_cons, hx, hxs]
    ring

lemma transientsOnBeats_length (sb : SequenceBuilder) (beats : List Beat)
    (startBar endBar : ℤ) (i s : ℝ) :
    (sb.TransientsOnBeats beats startBar endBar i s).ahap.pattern.length
      = sb.builder.ahap.pattern.length + (endBar + 1 - startBar).toNat * beats.length := by
  have hp : (sb.TransientsOnBeats beats startBar endBar i s).ahap.pattern
      = sb.builder.ahap.pattern ++ ((barsRange startBar endBar).map (fun bar =>
          beats.map (fun beat => transientPattern
            ((ctxOf sb.builder.musical).BarToSeconds ((bar : ℤ) : ℝ) +
              (ctxOf sb.builder.musical).BeatToSeconds beat) i s))).flatten :=
    transientsOnBeats_pattern sb.builder beats startBar endBar i s
  rw [hp, List.length_append,
    length_flatten_const _ _ beats.length (fun bar _ => by simp)]
  simp [barsRange]

/-- C5 counterexample: EveryNthBeat with step n = 0 over bars 0..2 of a default
120 BPM, 4/4 session (12 beats to cover) never exits its loop — no finite fuel
completes it — so the claim that every sequence-generator operation terminates
for every integer step value is false as stated. -/
theorem c5_counterexample :
    ¬ EveryNthBeatTerminates ((NewBuilder "d" "c" "ts").Sequence) 0 0 2 1 1 := by
  rintro ⟨fuel, hf⟩
  simp only [SequenceBuilder.EveryNthBeat] at hf
  rw [go_none_of_nonpos _ _ _ _ _ _ _ _ le_rfl
      (by norm_num [NewBuilder, New, Builder.Sequence, Builder.ensureMusical,
        Builder.musicalCtx, ctxOf, NewMusicalContext, MusicalContext.BeatsPerBar])
      fuel 0 _ le_rfl] at hf
  simp at hf

/-- C5 (amended): TransientsOnBeats and EveryBeat always terminate, committing
exactly (endBar - startBar + 1) * |beats| events, but the EveryNthBeat loop
terminates exactly when the step n is at least 1 or the bar range contributes
no beats; for n below 1 with a positive total beat count it runs forever. -/
theorem c5_termination (sb : SequenceBuilder) (n startBar endBar : ℤ) (i s : ℝ)
    (beats : List Beat) :
    (EveryNthBeatTerminates sb n startBar endBar i s ↔
      1 ≤ n ∨ (endBar - startBar + 1) * sb.builder.musicalCtx.BeatsPerBar ≤ 0) ∧
    (sb.TransientsOnBeats beats startBar endBar i s).ahap.pattern.length
      = sb.builder.ahap.pattern.length + (endBar + 1 - startBar).toNat * beats.length ∧
    (sb.EveryBeat startBar endBar i s).ahap.pattern.length
      = sb.builder.ahap.pattern.length +
        (endBar + 1 - startBar).toNat * sb.builder.musicalCtx.BeatsPerBar.toNat := by
  refine ⟨⟨?_, ?_⟩, transientsOnBeats_length sb beats startBar endBar i s, ?_⟩
  · intro ⟨fuel, hf⟩
    by_contra hcon
    push_neg at hcon
    obtain ⟨hn, htb⟩ := hcon
    rw [SequenceBuilder.EveryNthBeat] at hf
    rw [go_none_of_nonpos _ _ _ _ _ _ _ _ (by omega) (by omega) fuel 0 _ le_rfl] at hf
    simp at hf
  · intro h
    rcases h with hn | htb
    · exact ⟨((endBar - startBar + 1) * sb.builder.musicalCtx.BeatsPerBar).toNat,
        go_some_of_pos _ _ _ _ _ _ _ _ hn _ 0 _ (by omega)⟩
    · refine ⟨0, ?_⟩
      simp only [SequenceBuilder.EveryNthBeat, everyNthBeatGo,
        if_neg (by omega : ¬ (0 : ℤ) < (endBar - startBar + 1) *
          sb.builder.musicalCtx.BeatsPerBar)]
      rfl
  · show (sb.TransientsOnBeats _ startBar endBar i s).ahap.pattern.length = _
    rw [transientsOnBeats_length]
    simp

/-- C5 witness: the amended theorem applied at step n = 1 over bars 0..2 of a
default session; the termination characterization evaluates to a true
disjunction at 1 ≤ 1. -/
theorem c5_witness :
    EveryNthBeatTerminates ((NewBuilder "d" "c" "ts").Sequence) 1 0 2 1 1 :=
  (c5_termination ((NewBuilder "d" "c" "ts").Sequence) 1 0 2 1 1 []).1.mpr
    (Or.inl le_rfl)

end



